import Mathlib

/-
Verification of the hackchain-debugger core (src/lib/debugger.js).

The stepping state machine is embedded as a pure transition function on an
explicit state record; the external VM (hackchain-core Interpreter) is
modelled by the boolean answers the debugger observes from it on each tick
(prerunOneOutput, threads.output.isDone, runOneBoth).  The calls
prepareOutput / prepareInput / clear, whose only effect visible to the
debugger is which execution contexts are loaded, are tracked by two boolean
flags.  The viewport logic of updateThread and the addr formatter are
embedded as pure functions; the external disassembler is a parameter.
-/

namespace HackchainDebugger

/-- Phase of a debug session: the source field `this.state`, whose values are
the strings "output", "both", "success" and "failure". -/
inductive Phase where
  | output
  | both
  | success
  | failure
deriving DecidableEq, Repr

/-- State owned by the Debugger object: `this.state`, `this.counter`, plus
two flags recording which VM execution contexts have been prepared
(`interpreter.prepareOutput` / `interpreter.prepareInput`; `interpreter.clear`
discards both). -/
structure Dbg where
  state : Phase
  counter : Nat
  outputLoaded : Bool
  inputLoaded : Bool
deriving DecidableEq, Repr

/-- Answers the external VM gives to the debugger during one step():
`interpreter.prerunOneOutput()`, `interpreter.threads.output.isDone()` and
`interpreter.runOneBoth()`. -/
structure VMResp where
  outputProgress : Bool
  outputDone : Bool
  bothProgress : Bool

/-- Source `Debugger.prototype.finish`: sets the phase from the boolean
result and zeroes the counter. -/
def finish (result : Bool) (s : Dbg) : Dbg :=
  { s with state := if result then .success else .failure, counter := 0 }

/-- Source `Debugger.prototype._stepOutput`, parameterized by the budget
`Interpreter.maxInitTicks` and the VM answers of this tick. -/
def stepOutputPhase (maxInitTicks : Nat) (r : VMResp) (s : Dbg) : Dbg :=
  if !r.outputProgress then
    let c := s.counter + 1
    if maxInitTicks ≤ c then finish false { s with counter := c }
    else { s with counter := c }
  else if r.outputDone then finish true s
  else { s with state := .both, counter := 0, inputLoaded := true }

/-- Source `Debugger.prototype._stepBoth`, parameterized by the budget
`Interpreter.maxTicks` and the VM answers of this tick. -/
def stepBothPhase (maxTicks : Nat) (r : VMResp) (s : Dbg) : Dbg :=
  if !r.bothProgress then
    let c := s.counter + 1
    if maxTicks ≤ c then finish true { s with counter := c }
    else { s with counter := c }
  else finish true s

/-- Source `Debugger.prototype.step`: dispatch on the current phase; in the
terminal phases the body does nothing. -/
def step (maxInitTicks maxTicks : Nat) (r : VMResp) (s : Dbg) : Dbg :=
  match s.state with
  | .output => stepOutputPhase maxInitTicks r s
  | .both => stepBothPhase maxTicks r s
  | .success => s
  | .failure => s

/-- Source `Debugger.prototype.restart`: phase back to "output", counter to 0,
`interpreter.clear()` then `interpreter.prepareOutput(this.data)`. -/
def restart (s : Dbg) : Dbg :=
  { s with state := .output, counter := 0, outputLoaded := true,
           inputLoaded := false }

/-- State right after the Debugger constructor body ran (before `run`). -/
def initDbg : Dbg :=
  { state := .output, counter := 0, outputLoaded := false,
    inputLoaded := false }

/-- Closed form of one step taken in the "output" phase with no progress. -/
lemma step_output_noprogress (N M : Nat) (d b : Bool) (c : Nat) (o i : Bool) :
    step N M ⟨false, d, b⟩ ⟨.output, c, o, i⟩ =
      if N ≤ c + 1 then ⟨.failure, 0, o, i⟩ else ⟨.output, c + 1, o, i⟩ := by
  by_cases h : N ≤ c + 1 <;>
    simp [step, stepOutputPhase, finish, h]

/-- Closed form of one step taken in the "both" phase with no progress. -/
lemma step_both_noprogress (N M : Nat) (d b : Bool) (c : Nat) (o i : Bool) :
    step N M ⟨d, b, false⟩ ⟨.both, c, o, i⟩ =
      if M ≤ c + 1 then ⟨.success, 0, o, i⟩ else ⟨.both, c + 1, o, i⟩ := by
  by_cases h : M ≤ c + 1 <;>
    simp [step, stepBothPhase, finish, h]

/-- Closed form of one step taken in the "output" phase with progress. -/
lemma step_output_progress (N M : Nat) (od b : Bool) (c : Nat) (o i : Bool) :
    step N M ⟨true, od, b⟩ ⟨.output, c, o, i⟩ =
      if od then ⟨.success, 0, o, i⟩ else ⟨.both, 0, o, true⟩ := by
  cases od <;> simp [step, stepOutputPhase, finish]

/-- Closed form of one step taken in the "both" phase with progress. -/
lemma step_both_progress (N M : Nat) (op od : Bool) (c : Nat) (o i : Bool) :
    step N M ⟨op, od, true⟩ ⟨.both, c, o, i⟩ = ⟨.success, 0, o, i⟩ := by
  simp [step, stepBothPhase, finish]

/-- C3: starting in Bootstrapping with counter 0 and budget maxInitTicks = N,
if the advance-output operation reports no progress on every step, the phase
is still Bootstrapping with counter j after any j < N steps, and after exactly
N steps the phase is Failed with the counter reset to 0. -/
theorem bootstrap_timeout_after_exactly_N (N M : Nat) (hN : 1 ≤ N)
    (d b : Bool) (o i : Bool) :
    (∀ j, j < N →
      (step N M ⟨false, d, b⟩)^[j] ⟨.output, 0, o, i⟩ = ⟨.output, j, o, i⟩) ∧
    (step N M ⟨false, d, b⟩)^[N] ⟨.output, 0, o, i⟩ = ⟨.failure, 0, o, i⟩ := by
  have part1 : ∀ j, j < N →
      (step N M ⟨false, d, b⟩)^[j] ⟨.output, 0, o, i⟩ = ⟨.output, j, o, i⟩ := by
    intro j hj
    induction j with
    | zero => rfl
    | succ k ih =>
      rw [Function.iterate_succ_apply', ih (by omega),
          step_output_noprogress, if_neg (by omega)]
  refine ⟨part1, ?_⟩
  obtain ⟨K, rfl⟩ : ∃ K, N = K + 1 := ⟨N - 1, by omega⟩
  rw [Function.iterate_succ_apply', part1 K (by omega),
      step_output_noprogress, if_pos (by omega)]

/-- Witness for bootstrap_timeout_after_exactly_N at N = 2. -/
theorem bootstrap_timeout_witness :
    (∀ j, j < 2 →
      (step 2 7 ⟨false, true, true⟩)^[j] ⟨.output, 0, true, false⟩ =
        ⟨.output, j, true, false⟩) ∧
    (step 2 7 ⟨false, true, true⟩)^[2] ⟨.output, 0, true, false⟩ =
      ⟨.failure, 0, true, false⟩ :=
  bootstrap_timeout_after_exactly_N 2 7 (by decide) true true true false

/-- C1: in the Joint phase with budget maxTicks = M: with no progress on every
step the phase is still Joint with counter j after any j < M steps and becomes
Succeeded with counter 0 after exactly M steps; if progress is reported on
some step k ≤ M the phase becomes Succeeded immediately at step k; and no
single step taken from Joint ever produces the Failed phase. -/
theorem joint_budget_exhaustion_is_success (N M : Nat) (hM : 1 ≤ M)
    (d b : Bool) (o i : Bool) :
    (∀ j, j < M →
      (step N M ⟨d, b, false⟩)^[j] ⟨.both, 0, o, i⟩ = ⟨.both, j, o, i⟩) ∧
    (step N M ⟨d, b, false⟩)^[M] ⟨.both, 0, o, i⟩ = ⟨.success, 0, o, i⟩ ∧
    (∀ k, 1 ≤ k → k ≤ M → ∀ r : VMResp, r.bothProgress = true →
      step N M r ((step N M ⟨d, b, false⟩)^[k - 1] ⟨.both, 0, o, i⟩) =
        ⟨.success, 0, o, i⟩) ∧
    (∀ (r : VMResp) (s : Dbg), s.state = .both →
      (step N M r s).state ≠ .failure) := by
  have part1 : ∀ j, j < M →
      (step N M ⟨d, b, false⟩)^[j] ⟨.both, 0, o, i⟩ = ⟨.both, j, o, i⟩ := by
    intro j hj
    induction j with
    | zero => rfl
    | succ k ih =>
      rw [Function.iterate_succ_apply', ih (by omega),
          step_both_noprogress, if_neg (by omega)]
  refine ⟨part1, ?_, ?_, ?_⟩
  · obtain ⟨K, rfl⟩ : ∃ K, M = K + 1 := ⟨M - 1, by omega⟩
    rw [Function.iterate_succ_apply', part1 K (by omega),
        step_both_noprogress, if_pos (by omega)]
  · intro k hk1 hkM r hr
    rw [part1 (k - 1) (by omega)]
    obtain ⟨op, od, bp⟩ := r
    cases bp with
    | false => cases hr
    | true => simp [step, stepBothPhase, finish]
  · intro r s hs
    obtain ⟨st, c, ol, il⟩ := s
    obtain ⟨op, od, bp⟩ := r
    dsimp at hs
    subst hs
    cases bp <;>
      by_cases h : M ≤ c + 1 <;>
        simp [step, stepBothPhase, finish, h]

/-- Witness for joint_budget_exhaustion_is_success at M = 3, progress step 2. -/
theorem joint_budget_witness :
    (step 5 3 ⟨true, false, true⟩)
        ((step 5 3 ⟨true, false, false⟩)^[2 - 1] ⟨.both, 0, true, true⟩) =
      ⟨.success, 0, true, true⟩ :=
  (joint_budget_exhaustion_is_success 5 3 (by decide) true false true
      true).2.2.1 2 (by decide) (by decide) ⟨true, false, true⟩ rfl

/-- C4: a step taken in Bootstrapping that observes progress either goes
straight to Succeeded (output thread done) with counter 0, or loads the input
program, zeroes the counter and enters Joint. -/
theorem bootstrap_progress_transition (N M : Nat) (b : Bool) (c : Nat)
    (o i : Bool) :
    step N M ⟨true, true, b⟩ ⟨.output, c, o, i⟩ = ⟨.success, 0, o, i⟩ ∧
    step N M ⟨true, false, b⟩ ⟨.output, c, o, i⟩ = ⟨.both, 0, o, true⟩ := by
  constructor <;> simp [step, stepOutputPhase, finish]

/-- C5: step() taken in a terminal phase (Succeeded or Failed) leaves the
whole state, in particular phase and tick counter, unchanged. -/
theorem terminal_step_is_noop (N M : Nat) (r : VMResp) (s : Dbg)
    (h : s.state = .success ∨ s.state = .failure) :
    step N M r s = s := by
  obtain ⟨st, c, ol, il⟩ := s
  rcases h with h | h <;> (dsimp at h; subst h; rfl)

/-- Witness for terminal_step_is_noop in the Succeeded phase. -/
theorem terminal_step_witness :
    step 3 3 ⟨true, true, true⟩ ⟨.success, 0, true, true⟩ =
      ⟨.success, 0, true, true⟩ :=
  terminal_step_is_noop 3 3 ⟨true, true, true⟩ ⟨.success, 0, true, true⟩
    (Or.inl rfl)

/-- C6: restart() from any state yields Bootstrapping with counter 0, the
output context reloaded and the input context discarded, and it is
idempotent. -/
theorem restart_always_bootstrapping (s : Dbg) :
    restart s = ⟨.output, 0, true, false⟩ ∧ restart (restart s) = restart s :=
  ⟨rfl, rfl⟩

/-- Public operations exposed to the UI shell: step() with the VM answers it
observes, and restart(). -/
inductive DbgOp where
  | doStep (r : VMResp)
  | doRestart

/-- Apply one public operation. -/
def applyOp (N M : Nat) (s : Dbg) : DbgOp → Dbg
  | .doStep r => step N M r s
  | .doRestart => restart s

/-- Run a sequence of public operations from a starting state. -/
def runOps (N M : Nat) (s : Dbg) (ops : List DbgOp) : Dbg :=
  ops.foldl (applyOp N M) s

/-- Resting-state bound on the tick counter: strictly below the phase budget
in the two running phases, exactly 0 in the terminal ones. -/
def counterInv (N M : Nat) (s : Dbg) : Prop :=
  (s.state = .output → s.counter < N) ∧
  (s.state = .both → s.counter < M) ∧
  ((s.state = .success ∨ s.state = .failure) → s.counter = 0)

lemma counterInv_of_output (N M c : Nat) (ol il : Bool) (h : c < N) :
    counterInv N M ⟨.output, c, ol, il⟩ := by
  refine ⟨fun _ => h, fun hh => absurd hh (by simp), fun hh => ?_⟩
  rcases hh with hh | hh <;> exact absurd hh (by simp)

lemma counterInv_of_both (N M c : Nat) (ol il : Bool) (h : c < M) :
    counterInv N M ⟨.both, c, ol, il⟩ := by
  refine ⟨fun hh => absurd hh (by simp), fun _ => h, fun hh => ?_⟩
  rcases hh with hh | hh <;> exact absurd hh (by simp)

lemma counterInv_of_success (N M : Nat) (ol il : Bool) :
    counterInv N M ⟨.success, 0, ol, il⟩ := by
  exact ⟨fun hh => absurd hh (by simp), fun hh => absurd hh (by simp),
    fun _ => rfl⟩

lemma counterInv_of_failure (N M : Nat) (ol il : Bool) :
    counterInv N M ⟨.failure, 0, ol, il⟩ := by
  exact ⟨fun hh => absurd hh (by simp), fun hh => absurd hh (by simp),
    fun _ => rfl⟩

lemma counterInv_initDbg (N M : Nat) (hN : 1 ≤ N) : counterInv N M initDbg :=
  counterInv_of_output N M 0 false false hN

lemma counterInv_restart (N M : Nat) (hN : 1 ≤ N) (s : Dbg) :
    counterInv N M (restart s) :=
  counterInv_of_output N M 0 true false hN

lemma counterInv_step (N M : Nat) (_hN : 1 ≤ N) (hM : 1 ≤ M) (r : VMResp)
    (s : Dbg) (hs : counterInv N M s) : counterInv N M (step N M r s) := by
  obtain ⟨st, c, ol, il⟩ := s
  obtain ⟨op, od, bp⟩ := r
  obtain ⟨h1, h2, h3⟩ := hs
  cases st with
  | output =>
    have hc : c < N := h1 rfl
    cases op with
    | false =>
      rw [step_output_noprogress]
      by_cases h : N ≤ c + 1
      · rw [if_pos h]
        exact counterInv_of_failure N M ol il
      · rw [if_neg h]
        exact counterInv_of_output N M (c + 1) ol il (by omega)
    | true =>
      rw [step_output_progress]
      cases od with
      | false =>
        rw [if_neg (by simp)]
        exact counterInv_of_both N M 0 ol true hM
      | true =>
        rw [if_pos rfl]
        exact counterInv_of_success N M ol il
  | both =>
    have hc : c < M := h2 rfl
    cases bp with
    | false =>
      rw [step_both_noprogress]
      by_cases h : M ≤ c + 1
      · rw [if_pos h]
        exact counterInv_of_success N M ol il
      · rw [if_neg h]
        exact counterInv_of_both N M (c + 1) ol il (by omega)
    | true =>
      rw [step_both_progress]
      exact counterInv_of_success N M ol il
  | success => exact ⟨h1, h2, h3⟩
  | failure => exact ⟨h1, h2, h3⟩

lemma counterInv_runOps (N M : Nat) (hN : 1 ≤ N) (hM : 1 ≤ M)
    (ops : List DbgOp) :
    ∀ s : Dbg, counterInv N M s → counterInv N M (runOps N M s ops) := by
  induction ops with
  | nil => exact fun s hs => hs
  | cons op rest ih =>
    intro s hs
    cases op with
    | doStep r => exact ih _ (counterInv_step N M hN hM r s hs)
    | doRestart => exact ih _ (counterInv_restart N M hN s)

/-- C10: after the constructor and any sequence of public operations (each
step() with whatever answers the VM gives, and restart()), the tick counter
is strictly below maxInitTicks in Bootstrapping, strictly below maxTicks in
Joint, and exactly 0 in Succeeded and Failed. -/
theorem tick_counter_never_rests_at_budget (N M : Nat) (hN : 1 ≤ N)
    (hM : 1 ≤ M) (ops : List DbgOp) :
    counterInv N M (runOps N M initDbg ops) :=
  counterInv_runOps N M hN hM ops initDbg (counterInv_initDbg N M hN)

/-- Witness for tick_counter_never_rests_at_budget on a short run. -/
theorem tick_counter_invariant_witness :
    counterInv 2 2
      (runOps 2 2 initDbg [.doRestart, .doStep ⟨false, false, false⟩]) :=
  tick_counter_never_rests_at_budget 2 2 (by decide) (by decide)
    [.doRestart, .doStep ⟨false, false, false⟩]

/-
Constructor validation (C9).  The payload `data` is modelled only as far as
the constructor asserts inspect it: whether it is an object, and for each
field which JavaScript shape it has.
-/

/-- Shape of a JavaScript value as far as the constructor asserts look. -/
inductive JSVal where
  | str (s : String)
  | arr
  | buf
  | other

/-- Models `typeof v === "string"` on an optional field (none = absent). -/
def isStringVal : Option JSVal → Bool
  | some (.str _) => true
  | _ => false

/-- Models `Array.isArray(v) || Buffer.isBuffer(v)`. -/
def isArrayOrBuffer : Option JSVal → Bool
  | some .arr => true
  | some .buf => true
  | _ => false

/-- Fields of the session payload the constructor inspects. -/
structure PayloadShape where
  hash : Option JSVal
  output : Option JSVal
  input : Option JSVal

/-- Source assert sequence of the Debugger constructor, in order; `none`
models a payload that is not an object. -/
def debuggerChecks : Option PayloadShape → Except String Unit
  | none => .error "Debugger: data must be an object"
  | some p =>
    if !isStringVal p.hash then
      .error "Debugger: data.hash must be a string"
    else if !isArrayOrBuffer p.output then
      .error "Debugger: data.output must be an Array or Buffer"
    else if !isArrayOrBuffer p.input then
      .error "Debugger: data.input must be an Array or Buffer"
    else .ok ()

/-- True when the constructor does not throw. -/
def checksPass (d : Option PayloadShape) : Bool :=
  match debuggerChecks d with
  | .ok _ => true
  | .error _ => false

/-- Character of a hexadecimal string. -/
def isHexChar (c : Char) : Bool :=
  ('0' ≤ c && c ≤ '9') || ('a' ≤ c && c ≤ 'f') || ('A' ≤ c && c ≤ 'F')

/-- Modelled from the spec claim wording: the field is a string consisting of
hexadecimal digits. -/
def isHexStringVal : Option JSVal → Bool
  | some (.str s) => s.data.all isHexChar
  | _ => false

/-- Claim wording as a predicate: construction throws iff the payload is not
an object, or hash is not a hex string, or output or input is neither an
array nor a buffer. -/
def claimSaysThrows : Option PayloadShape → Bool
  | none => true
  | some p =>
    !isHexStringVal p.hash || !isArrayOrBuffer p.output ||
      !isArrayOrBuffer p.input

/-- Amended shape predicate: hash only has to be a string, hex-ness of its
characters is never checked. -/
def validShape : Option PayloadShape → Bool
  | none => false
  | some p =>
    isStringVal p.hash && isArrayOrBuffer p.output && isArrayOrBuffer p.input

/-- C9 counterexample: with hash the non-hex string "zz" the claim says the
constructor throws, but every assert passes and construction succeeds. -/
theorem ctor_hex_claim_counterexample :
    checksPass (some ⟨some (.str "zz"), some .buf, some .buf⟩) = true ∧
    claimSaysThrows (some ⟨some (.str "zz"), some .buf, some .buf⟩) = true :=
  ⟨rfl, rfl⟩

/-- C9 amended: construction throws iff the payload is not an object, or its
hash field is not a string, or its output or input field is neither an array
nor a buffer; equivalently the asserts pass exactly on well-shaped payloads. -/
theorem ctor_throws_iff_shape_invalid (d : Option PayloadShape) :
    checksPass d = validShape d := by
  cases d with
  | none => rfl
  | some p =>
    obtain ⟨h, o, i⟩ := p
    simp only [checksPass, debuggerChecks, validShape]
    cases hh : isStringVal h <;> cases ho : isArrayOrBuffer o <;>
      cases hi : isArrayOrBuffer i <;> simp

/-
Address formatter (C7).  The source computes `i.toString(16)` and pads by
cases on the digit count.  The JavaScript builtin renders a nonnegative
integer in positional base-16 notation with lowercase digits and no leading
zeros, and renders 0 as "0"; toHexGo is that representation, written with an
explicit fuel argument (the recursion divides by 16, so fuel n is enough).
-/

/-- Big-endian base-16 digit characters of n, empty for 0. -/
def toHexGo : Nat → Nat → List Char
  | 0, _ => []
  | fuel + 1, n =>
    if n = 0 then []
    else toHexGo fuel (n / 16) ++ [Nat.digitChar (n % 16)]

/-- Models `i.toString(16)` from the source for a nonnegative i. -/
def jsHex (n : Nat) : String :=
  if n = 0 then "0" else String.mk (toHexGo n n)

/-- Source local function `addr` in updateThread: pad the hex form of the
offset to four digits behind "0x", or render "0x...." when it is longer. -/
def addr (i : Nat) : String :=
  let r := jsHex i
  if r.length = 1 then "0x000" ++ r
  else if r.length = 2 then "0x00" ++ r
  else if r.length = 3 then "0x0" ++ r
  else if r.length = 4 then "0x" ++ r
  else "0x...."

lemma toHexGo_eq_digits : ∀ (fuel n : Nat), n ≤ fuel →
    toHexGo fuel n = ((Nat.digits 16 n).reverse.map Nat.digitChar) := by
  intro fuel
  induction fuel with
  | zero =>
    intro n hn
    interval_cases n
    simp [toHexGo]
  | succ f ih =>
    intro n hn
    by_cases h : n = 0
    · subst h
      simp [toHexGo]
    · have hdiv : n / 16 ≤ f := by
        have hlt : n / 16 < n := Nat.div_lt_self (Nat.pos_of_ne_zero h) (by omega)
        omega
      rw [show toHexGo (f + 1) n =
            toHexGo f (n / 16) ++ [Nat.digitChar (n % 16)] by
          simp [toHexGo, h]]
      rw [ih (n / 16) hdiv,
          Nat.digits_def' (by omega : 1 < 16) (Nat.pos_of_ne_zero h)]
      simp

lemma toHexGo_length (n : Nat) :
    (toHexGo n n).length = (Nat.digits 16 n).length := by
  rw [toHexGo_eq_digits n n (le_refl n)]
  simp

lemma jsHex_length_of_pos (n : Nat) (h : n ≠ 0) :
    (jsHex n).length = (Nat.digits 16 n).length := by
  rw [jsHex, if_neg h]
  show (toHexGo n n).length = _
  exact toHexGo_length n

lemma jsHex_length_pos (n : Nat) : 1 ≤ (jsHex n).length := by
  by_cases h : n = 0
  · subst h
    decide
  · rw [jsHex_length_of_pos n h]
    have : Nat.digits 16 n ≠ [] := Nat.digits_ne_nil_iff_ne_zero.mpr h
    cases hd : Nat.digits 16 n with
    | nil => exact absurd hd this
    | cons a l => simp

lemma jsHex_length_le_four (n : Nat) (h : n < 65536) :
    (jsHex n).length ≤ 4 := by
  by_cases h0 : n = 0
  · subst h0
    decide
  · rw [jsHex_length_of_pos n h0]
    by_contra hlen
    have h5 : 5 ≤ (Nat.digits 16 n).length := by omega
    have hle : (16 : Nat) ^ (Nat.digits 16 n).length ≤ 16 * n :=
      Nat.base_pow_length_digits_le 16 n (by omega) h0
    have hpow : (16 : Nat) ^ 5 ≤ 16 ^ (Nat.digits 16 n).length :=
      Nat.pow_le_pow_right (by omega) h5
    have : (16 : Nat) ^ 5 ≤ 16 * n := le_trans hpow hle
    have : (65536 : Nat) ≤ n := by
      have h16 : (16 : Nat) ^ 5 = 16 * 65536 := by norm_num
      omega
    omega

lemma four_lt_jsHex_length (n : Nat) (h : 65536 ≤ n) :
    4 < (jsHex n).length := by
  have h0 : n ≠ 0 := by omega
  rw [jsHex_length_of_pos n h0]
  by_contra hlen
  have : n < 16 ^ (Nat.digits 16 n).length := Nat.lt_base_pow_length_digits (by omega)
  have hpow : (16 : Nat) ^ (Nat.digits 16 n).length ≤ 16 ^ 4 :=
    Nat.pow_le_pow_right (by omega) (by omega)
  have : n < 16 ^ 4 := lt_of_lt_of_le this hpow
  norm_num at this
  omega

lemma mk_append (a b : List Char) : String.mk a ++ String.mk b = String.mk (a ++ b) :=
  rfl

/-- Padding identity used by the address formatter cases. -/
lemma pad_cases (r : String) (h1 : 1 ≤ r.length) (h4 : r.length ≤ 4) :
    (if r.length = 1 then "0x000" ++ r
     else if r.length = 2 then "0x00" ++ r
     else if r.length = 3 then "0x0" ++ r
     else if r.length = 4 then "0x" ++ r
     else "0x....") =
      "0x" ++ String.mk (List.replicate (4 - r.length) '0') ++ r := by
  obtain ⟨l⟩ := r
  have hl : (String.mk l).length = l.length := rfl
  rw [hl] at h1 h4 ⊢
  interval_cases h : l.length <;>
    simp only [h, reduceIte] <;>
    · rw [show ((("0x" : String)) = String.mk ['0', 'x']) from rfl]
      rw [mk_append, mk_append]
      rfl

/-- C7: addr renders an offset below 0x10000 as "0x" followed by its
lowercase hex form left-padded with zeros to exactly four digits, and renders
the fixed overflow marker "0x...." for any larger offset; in particular
addr 0x1 = "0x0001", addr 0xABCD = "0xabcd" and addr 0x12345 = "0x....". -/
theorem addr_pads_to_four_hex_digits :
    (∀ n : Nat, addr n =
      if n < 65536 then
        "0x" ++ String.mk (List.replicate (4 - (jsHex n).length) '0') ++ jsHex n
      else "0x....") ∧
    addr 0x1 = "0x0001" ∧ addr 0xABCD = "0xabcd" ∧ addr 0x12345 = "0x...." := by
  refine ⟨fun n => ?_, by decide, by decide, by decide⟩
  by_cases h : n < 65536
  · rw [if_pos h, addr]
    exact pad_cases (jsHex n) (jsHex_length_pos n) (jsHex_length_le_four n h)
  · rw [if_neg h, addr]
    have h4 := four_lt_jsHex_length n (by omega)
    rw [if_neg (by omega), if_neg (by omega), if_neg (by omega),
        if_neg (by omega)]

/-
Viewport builder (C2, C8).  Source updateThread with rowCount = box.height
minus 1.  The external disassembler pipeline (new Disassembler(buf),
Disassembler.stringify(disasm.run()).split) is a parameter producing the
decoded line list from the sliced bytes.  JavaScript shift right by one on a
(32-bit) integer is floor division by 2, hence Int.fdiv.
-/

/-- Byte offset `start = thread.pc - 2 * contextBefore`. -/
def viewStart (pc rowCount : Nat) : Int :=
  (pc : Int) - 2 * (rowCount / 2 : Nat)

/-- Byte offset `end = thread.pc + 2 * contextAfter`. -/
def viewStop (pc rowCount : Nat) : Int :=
  (pc : Int) + 2 * ((rowCount - rowCount / 2 : Nat) : Int)

/-- Source slice of the memory image: `start < 0` clamps the window to begin
at offset 0; Buffer.slice clamps the end to the buffer length. -/
def codeSlice (pc rowCount : Nat) (memory : List Nat) : List Nat :=
  if viewStart pc rowCount < 0 then
    memory.take (viewStop pc rowCount).toNat
  else
    (memory.drop (viewStart pc rowCount).toNat).take
      (viewStop pc rowCount - viewStart pc rowCount).toNat

/-- Source while loop: unshift "..." until the list has rowCount lines. -/
def padLines (rowCount : Nat) (l : List String) : List String :=
  List.replicate (rowCount - l.length) "..." ++ l

/-- Source line decoration inside lines.map: current-row marker, address
label from `Math.max(0, (start >> 1) + i)`, then the decoded line. -/
def decorateLine (contextBefore : Nat) (half : Int) (i : Nat) (line : String) :
    String :=
  (if i = contextBefore then "* " else "  ") ++
    addr (max 0 (half + (i : Int))).toNat ++ ": " ++ line

/-- Derived view of one thread: the decorated line list handed to
box.setItems and the selected row index from box.select(contextBefore). -/
structure ViewWindow where
  lines : List String
  currentRowIndex : Nat
deriving DecidableEq, Repr

/-- Source updateThread viewport computation for one thread. -/
def updateThread (disasm : List Nat → List String) (pc rowCount : Nat)
    (memory : List Nat) : ViewWindow :=
  let contextBefore := rowCount / 2
  let dlines := disasm (codeSlice pc rowCount memory)
  let padded := padLines rowCount dlines
  { lines := padded.mapIdx fun i line =>
      decorateLine contextBefore (Int.fdiv (viewStart pc rowCount) 2) i line,
    currentRowIndex := contextBefore }

lemma updateThread_lines_length (disasm : List Nat → List String)
    (pc rowCount : Nat) (memory : List Nat) :
    (updateThread disasm pc rowCount memory).lines.length =
      max rowCount (disasm (codeSlice pc rowCount memory)).length := by
  simp only [updateThread, padLines, List.length_mapIdx, List.length_append,
    List.length_replicate]
  omega

lemma updateThread_lines_getElem (disasm : List Nat → List String)
    (pc rowCount : Nat) (memory : List Nat) (i : Nat) :
    (updateThread disasm pc rowCount memory).lines[i]? =
      ((padLines rowCount (disasm (codeSlice pc rowCount memory)))[i]?).map
        (decorateLine (rowCount / 2) (Int.fdiv (viewStart pc rowCount) 2) i) := by
  simp [updateThread]

/-- C2 counterexample: with rowCount = 1 and a disassembler output of two
lines, the produced line list has two entries, not exactly rowCount. -/
theorem viewport_not_cut_counterexample :
    ¬ ((updateThread (fun _ => ["a", "b"]) 0 1 []).lines.length = 1) := by
  decide

/-- C2 amended: the viewport line list has exactly
max rowCount decodedLineCount entries: output shorter than rowCount is padded
at the front with ellipsis placeholder rows up to exactly rowCount entries,
and output longer than rowCount is kept whole, not cut to the last rowCount
entries. -/
theorem viewport_length_and_front_padding (disasm : List Nat → List String)
    (pc rowCount : Nat) (memory : List Nat) :
    (updateThread disasm pc rowCount memory).lines.length =
      max rowCount (disasm (codeSlice pc rowCount memory)).length ∧
    (∀ i, i < rowCount - (disasm (codeSlice pc rowCount memory)).length →
      (updateThread disasm pc rowCount memory).lines[i]? =
        some (decorateLine (rowCount / 2)
          (Int.fdiv (viewStart pc rowCount) 2) i "...")) := by
  refine ⟨updateThread_lines_length disasm pc rowCount memory, fun i hi => ?_⟩
  rw [updateThread_lines_getElem]
  have hrep : i < (List.replicate
      (rowCount - (disasm (codeSlice pc rowCount memory)).length)
      ("..." : String)).length := by
    simpa using hi
  rw [padLines, List.getElem?_append_left hrep,
      List.getElem?_replicate_of_lt (by simpa using hi)]
  rfl

/-- Witness for viewport_length_and_front_padding: an empty disassembler
output with rowCount = 2 is padded with ellipsis rows at indices 0 and 1. -/
theorem viewport_padding_witness :
    (updateThread (fun _ => []) 0 2 []).lines[0]? =
      some (decorateLine (2 / 2) (Int.fdiv (viewStart 0 2) 2) 0 "...") :=
  (viewport_length_and_front_padding (fun _ => []) 0 2 []).2 0 (by decide)

/-- C8: the current-row index is always rowCount / 2 (2 both for rowCount 5
and rowCount 4), the row at that index carries the "* " marker while every
other row is prefixed with two blanks, and the address label of row i is
max 0 ((start >> 1) + i) for start the byte offset of the window. -/
theorem viewport_marker_and_addresses (disasm : List Nat → List String)
    (pc rowCount : Nat) (memory : List Nat) :
    (updateThread disasm pc rowCount memory).currentRowIndex = rowCount / 2 ∧
    (updateThread disasm pc 5 memory).currentRowIndex = 2 ∧
    (updateThread disasm pc 4 memory).currentRowIndex = 2 ∧
    (∀ i, i < (updateThread disasm pc rowCount memory).lines.length →
      ((updateThread disasm pc rowCount memory).lines[i]?).map
          (fun s => s.data.take 2) =
        some (if i = rowCount / 2 then ['*', ' '] else [' ', ' '])) ∧
    (∀ i, i < (updateThread disasm pc rowCount memory).lines.length →
      ∃ rest : String,
        (updateThread disasm pc rowCount memory).lines[i]? =
          some ((if i = rowCount / 2 then "* " else "  ") ++
            addr (max 0 (Int.fdiv (viewStart pc rowCount) 2 + (i : Int))).toNat
              ++ ": " ++ rest)) := by
  have hline : ∀ i, i < (updateThread disasm pc rowCount memory).lines.length →
      ∃ line : String,
        (updateThread disasm pc rowCount memory).lines[i]? =
          some (decorateLine (rowCount / 2)
            (Int.fdiv (viewStart pc rowCount) 2) i line) := by
    intro i hi
    have hpad : i <
        (padLines rowCount (disasm (codeSlice pc rowCount memory))).length := by
      have := updateThread_lines_length disasm pc rowCount memory
      simp only [padLines, List.length_append, List.length_replicate]
      omega
    refine ⟨(padLines rowCount (disasm (codeSlice pc rowCount memory)))[i], ?_⟩
    rw [updateThread_lines_getElem, List.getElem?_eq_getElem hpad]
    rfl
  refine ⟨rfl, rfl, rfl, fun i hi => ?_, fun i hi => ?_⟩
  · obtain ⟨line, hl⟩ := hline i hi
    rw [hl]
    by_cases h : i = rowCount / 2 <;>
      simp [decorateLine, h]
  · obtain ⟨line, hl⟩ := hline i hi
    exact ⟨line, by rw [hl]; rfl⟩

/-- Witness for viewport_marker_and_addresses with rowCount = 2 and one
decoded line. -/
theorem viewport_marker_witness :
    ((updateThread (fun _ => ["x1"]) 4 2 [7, 7, 7, 7, 7, 7]).lines[1]?).map
        (fun s => s.data.take 2) =
      some (if 1 = 2 / 2 then ['*', ' '] else [' ', ' ']) :=
  (viewport_marker_and_addresses (fun _ => ["x1"]) 4 2
      [7, 7, 7, 7, 7, 7]).2.2.2.1 1 (by decide)

end HackchainDebugger
